import Mathlib

/-!
Verification of the chain_reflow repository's hierarchical-nesting analyzer
(`src/matryoshka_analysis.py`) and matrix-based gap detector
(`src/matrix_gap_detection.py`), as a shallow embedding in Lean 4.

Conventions of the embedding:
* Python floats are modelled as exact rationals (`ℚ`); the magic constants
  0.4 / 0.3 / 0.2 / 0.1 / 0.8 / ... of the source become `4/10`, `3/10`, ...
* Python strings are Lean `String`s; the substring test `kw in s` is the
  executable `strContains`, and `str.lower()` is `lowerStr` (mapping
  `Char.toLower` over the characters, which agrees with CPython on the ASCII
  identifiers appearing in the taxonomy table).
* `len(arch.get('components', []))` is the only use the classifier makes of
  the components list, so `Arch.components` stores the length directly.
* NumPy matrices are `Matrix (Fin n) (Fin n) ℚ`.  `np.linalg.pinv A` is
  modelled by quantifying over any `P` satisfying the four Penrose equations
  (`IsMoorePenrose`), which characterise the Moore–Penrose pseudoinverse
  uniquely; `np.linalg.svd` is modelled by quantifying over factorisations
  `B = U * diagonal S * Vᵀ` with orthogonal `U`, `V` (`IsSVD`).
* `np.exp (-error)` appears in `MissingSystemSolver._calculate_confidence`;
  the confidence record is therefore parameterised by the value `errScore`
  of `exp (-error)`.  Every theorem below only ever needs the case
  `error = 0`, where `exp 0 = 1` exactly, so the parameter is instantiated
  with `1` together with a proof that the reconstruction-error matrix is `0`.
-/

/-! ## String helpers (Python `str.lower` and the `in` substring test) -/

/-- `s.lower()` — lower-case every character. -/
def lowerStr (s : String) : String := ⟨s.data.map Char.toLower⟩

/-- Does `pat` occur at the head of `s`? (helper for the substring test). -/
def startsWithChars : List Char → List Char → Bool
  | [], _ => true
  | _ :: _, [] => false
  | c :: cs, d :: ds => c == d && startsWithChars cs ds

/-- Does `pat` occur contiguously inside `s`? (Python `pat in s`). -/
def containsChars (pat : List Char) : List Char → Bool
  | [] => startsWithChars pat []
  | s@(_ :: rest) => startsWithChars pat s || containsChars pat rest

/-- Python `pat in s` on strings. -/
def strContains (s pat : String) : Bool := containsChars pat.data s.data

/-! ## Data model of `matryoshka_analysis.py` -/

/-- A reference inside an architecture's `subarchitectures` list:
`{name: ..., id: ...}` with either key possibly absent. -/
structure SubRef where
  name : Option String
  id : Option String
deriving Repr, DecidableEq

/-- The architecture dictionaries consumed by `MatryoshkaAnalyzer`.
Fields mirror the keys the analyzer reads: `name`, `components` (only its
length is ever used), `description`, `scope`, `hierarchy_level`, `id` and
`subarchitectures`.  `Option` encodes an absent key. -/
structure Arch where
  name : String
  components : Nat
  description : String
  scope : String
  hierarchy_level : Option String
  id : Option String
  subarchitectures : List SubRef
deriving Repr, DecidableEq

/-- `HierarchyMetadata` of the source (the `scope_indicators` bag is a
reporting-only field never read by the analysis code and is omitted). -/
structure HierarchyMetadata where
  architecture_name : String
  declared_level : Option String
  inferred_level : String
  confidence : ℚ
  evidence : List String
deriving Repr, DecidableEq

/-- `NestingRelationship` of the source. -/
structure NestingRelationship where
  id : String
  parent_architecture : String
  child_architecture : String
  parent_level : String
  child_level : String
  relationship_type : String
  evidence : List String
  confidence : ℚ
  direct_containment : Bool
deriving Repr, DecidableEq

/-- `HierarchicalGap` of the source. -/
structure HierarchicalGap where
  id : String
  architecture_a : String
  architecture_b : String
  level_a : String
  level_b : String
  missing_level : String
  hypothesis : String
  evidence : List String
  gap_type : String
deriving Repr, DecidableEq

/-- `MatryoshkaAnalyzer.hierarchy_order` (the enum values, in order). -/
def hierarchyOrder : List String :=
  ["component", "subsystem", "system", "system_of_systems", "enterprise"]

/-- One entry of `MatryoshkaAnalyzer.level_indicators`:
`typical_component_count` (a `none` max encodes `float('inf')`),
`keywords` and `scope`. -/
structure LevelIndicator where
  minCount : Nat
  maxCount : Option Nat
  keywords : List String
  scope : String

/-- The static `level_indicators` table (the `examples` entries are never
read by the code and are omitted).  The catch-all branch is unreachable:
the table is only indexed by members of `hierarchyOrder`. -/
def levelIndicator : String → LevelIndicator
  | "component" =>
      ⟨1, some 20, ["component", "module", "part", "unit", "element"],
        "single_responsibility"⟩
  | "subsystem" =>
      ⟨5, some 50, ["subsystem", "assembly", "group", "package"],
        "related_components"⟩
  | "system" =>
      ⟨10, some 200, ["system", "platform", "service", "application"],
        "complete_functionality"⟩
  | "system_of_systems" =>
      ⟨50, some 1000, ["system_of_systems", "integrated", "enterprise", "platform"],
        "multiple_systems"⟩
  | "enterprise" =>
      ⟨100, none, ["enterprise", "organization", "portfolio", "fleet"],
        "organization_level"⟩
  | _ => ⟨0, some 0, [], ""⟩

/-- `min_count <= component_count <= max_count` (with `none` = infinity). -/
def countInRange (c : Nat) (ind : LevelIndicator) : Bool :=
  ind.minCount ≤ c && (match ind.maxCount with
    | none => true
    | some m => c ≤ m)

/-- The additive score one level receives in `infer_hierarchy_level`:
+0.4 count range, +0.3 keyword in name (at most once — the loop breaks),
+0.2 keyword in description, +0.1 scope match. -/
def levelScore (arch : Arch) (lvl : String) : ℚ :=
  let ind := levelIndicator lvl
  let nameL := lowerStr arch.name
  let descL := lowerStr arch.description
  (if countInRange arch.components ind then (4 : ℚ)/10 else 0)
  + (if ind.keywords.any (fun k => strContains nameL k) then (3 : ℚ)/10 else 0)
  + (if ind.keywords.any (fun k => strContains descL k) then (2 : ℚ)/10 else 0)
  + (if arch.scope ≠ "" ∧ lowerStr arch.scope = ind.scope then (1 : ℚ)/10 else 0)

/-- The `level_evidence` list built for one level, in source order
(count evidence, then first matching name keyword, then first matching
description keyword, then scope). -/
def levelEvidence (arch : Arch) (lvl : String) : List String :=
  let ind := levelIndicator lvl
  let nameL := lowerStr arch.name
  let descL := lowerStr arch.description
  (if countInRange arch.components ind then
      ["Component count (" ++ toString arch.components ++ ") matches " ++ lvl ++ " range"]
    else [])
  ++ (match ind.keywords.find? (fun k => strContains nameL k) with
      | some k => ["Name contains '" ++ k ++ "' keyword"]
      | none => [])
  ++ (match ind.keywords.find? (fun k => strContains descL k) with
      | some k => ["Description contains '" ++ k ++ "' keyword"]
      | none => [])
  ++ (if arch.scope ≠ "" ∧ lowerStr arch.scope = ind.scope then
        ["Scope matches: " ++ arch.scope]
      else [])

/-- `max(scores, key=scores.get)` over the insertion order `hierarchy_order`:
keep the current best, replace only on a strictly greater score (so the
first maximum wins).  The `[]` branch is unreachable. -/
def bestLevel (arch : Arch) : String :=
  match hierarchyOrder with
  | [] => "unknown"
  | h :: t => t.foldl (fun acc l =>
      if levelScore arch acc < levelScore arch l then l else acc) h

/-- The inference branch of `infer_hierarchy_level` (no declared level). -/
def inferScored (arch : Arch) : HierarchyMetadata :=
  let best := bestLevel arch
  let bscore := levelScore arch best
  if bscore < (3 : ℚ)/10 then
    { architecture_name := arch.name
      declared_level := none
      inferred_level := "unknown"
      confidence := min bscore 1
      evidence := ["Insufficient evidence to determine hierarchy level"] }
  else
    { architecture_name := arch.name
      declared_level := none
      inferred_level := best
      confidence := min bscore 1
      evidence := levelEvidence arch best }

/-- `MatryoshkaAnalyzer.infer_hierarchy_level`.  A declared level is used
directly when truthy (`if declared_level:` — `None` and `""` both fall
through to scoring). -/
def inferHierarchyLevel (arch : Arch) : HierarchyMetadata :=
  match arch.hierarchy_level with
  | some d =>
      if d = "" then inferScored arch
      else
        { architecture_name := arch.name
          declared_level := some d
          inferred_level := d
          confidence := (9 : ℚ)/10
          evidence := ["Explicitly declared as " ++ d] }
  | none => inferScored arch

/-! ## `MatryoshkaAnalyzer.analyze_relationship` -/

/-- Index of a level string in `hierarchy_order` (`list.index`, where a
`ValueError` becomes `none`). -/
def hIdx (lvl : String) : Option Nat :=
  hierarchyOrder.findIdx? (fun l => l == lvl)

/-- `MatryoshkaAnalyzer._check_explicit_containment`.  Python compares
`sub.get('id') == child_arch.get('id')`, so two absent ids compare equal —
the `Option` equality reproduces that. -/
def checkExplicitContainment (parent child : Arch) : Bool :=
  parent.subarchitectures.any (fun sub =>
    sub.name == some child.name || sub.id == child.id)

/-- Shared tail of `analyze_relationship` once parent and child have been
picked (`rt0` is `parent_child` when `idx_a < idx_b`, else `child_parent`;
`ia`, `ib` are the two level indices, in call order). -/
def relTail (parentA childA : Arch) (parentM childM : HierarchyMetadata)
    (rt0 : String) (ia ib : Nat) : NestingRelationship :=
  let levelGap := max ia ib - min ia ib
  let direct0 := levelGap == 1
  let rt := if direct0 then rt0 else "nested_indirect"
  let ev0 :=
    [parentA.name ++ " at " ++ parentM.inferred_level ++ " level",
     childA.name ++ " at " ++ childM.inferred_level ++ " level",
     "Level gap: " ++ toString levelGap ++ " level(s)"]
  let ev1 := if direct0 then ev0 else
    ev0 ++ ["Indirect nesting - " ++ toString (levelGap - 1)
      ++ " intermediate level(s) may exist"]
  let ec := checkExplicitContainment parentA childA
  let ev2 := if ec then ev1 ++ ["Explicit containment reference found"] else ev1
  { id := "rel_" ++ parentA.name ++ "_" ++ childA.name
    parent_architecture := parentA.name
    child_architecture := childA.name
    parent_level := parentM.inferred_level
    child_level := childM.inferred_level
    relationship_type := rt
    evidence := ev2
    confidence := min parentM.confidence childM.confidence
    direct_containment := direct0 || ec }

/-- `MatryoshkaAnalyzer.analyze_relationship`.  Note the source's branch
comments are inverted with respect to `hierarchy_order` (index 0 is the
*lowest* level), but the embedding reproduces the code as written:
`idx_a < idx_b` yields `parent_child` with `arch_a` as parent. -/
def analyzeRelationship (archA archB : Arch)
    (metaA metaB : HierarchyMetadata) : NestingRelationship :=
  match hIdx metaA.inferred_level, hIdx metaB.inferred_level with
  | some ia, some ib =>
    if ia = ib then
      { id := "rel_" ++ archA.name ++ "_" ++ archB.name
        parent_architecture := archA.name
        child_architecture := archB.name
        parent_level := metaA.inferred_level
        child_level := metaB.inferred_level
        relationship_type := "peer"
        evidence := ["Both at " ++ metaA.inferred_level ++ " level"]
        confidence := min metaA.confidence metaB.confidence
        direct_containment := false }
    else if ia < ib then relTail archA archB metaA metaB "parent_child" ia ib
    else relTail archB archA metaB metaA "child_parent" ia ib
  | _, _ =>
    { id := "rel_" ++ archA.name ++ "_" ++ archB.name
      parent_architecture := "unknown"
      child_architecture := "unknown"
      parent_level := metaA.inferred_level
      child_level := metaB.inferred_level
      relationship_type := "unrelated"
      evidence := ["Cannot determine relationship - hierarchy level unknown"]
      confidence := 0
      direct_containment := false }

/-! ## `MatryoshkaAnalyzer.discover_hierarchical_gaps` and its helpers -/

/-- `MatryoshkaAnalyzer._identify_missing_intermediate`. -/
def identifyMissingIntermediate (parentName childName parentLevel childLevel :
    String) : Option HierarchicalGap :=
  match hIdx parentLevel, hIdx childLevel with
  | some ip, some ic =>
    let levelGap := max ip ic - min ip ic
    if levelGap ≤ 1 then none
    else
      let missingLevel := hierarchyOrder.getD ((ip + ic) / 2) "unknown"
      some
        { id := "gap_intermediate_" ++ parentName ++ "_" ++ childName
          architecture_a := parentName
          architecture_b := childName
          level_a := parentLevel
          level_b := childLevel
          missing_level := missingLevel
          hypothesis := "Unknown " ++ missingLevel
            ++ " architecture that contains " ++ childName
            ++ " and is contained by " ++ parentName
          evidence :=
            [parentName ++ " at " ++ parentLevel ++ " level",
             childName ++ " at " ++ childLevel ++ " level",
             "Gap of " ++ toString levelGap ++ " levels suggests "
               ++ toString (levelGap - 1) ++ " missing intermediate(s)"]
          gap_type := "missing_intermediate" }
  | _, _ => none

/-- The parent names of `peer` recorded in the relationship list
(`parents[peer]` in `_check_missing_common_parent`). -/
def parentsOf (rels : List NestingRelationship) (peer : String) : List String :=
  rels.filterMap (fun r =>
    if r.child_architecture == peer then some r.parent_architecture else none)

/-- `all(parents[peer] for peer in peers)` — every peer has at least one
recorded parent. -/
def haveAllParents (peers : List String) (rels : List NestingRelationship) :
    Bool :=
  peers.all (fun p => !(parentsOf rels p).isEmpty)

/-- The intersection `set(parents[peers[0]]) & ... & set(parents[peers[n]])`
(as the sublist of the first peer's parents shared by every other peer). -/
def commonParents (peers : List String) (rels : List NestingRelationship) :
    List String :=
  match peers with
  | [] => []
  | p0 :: rest => (parentsOf rels p0).filter (fun x =>
      rest.all (fun q => (parentsOf rels q).contains x))

/-- `MatryoshkaAnalyzer._check_missing_common_parent`.  Only called with
`peers.length > 1`; the `getD` defaults are unreachable at call sites. -/
def checkMissingCommonParent (peers : List String) (level : String)
    (rels : List NestingRelationship) : Option HierarchicalGap :=
  if haveAllParents peers rels && !(commonParents peers rels).isEmpty then none
  else
    match hIdx level with
    | some idx =>
      if idx < hierarchyOrder.length - 1 then
        let missingLevel := hierarchyOrder.getD (idx + 1) "unknown"
        some
          { id := "gap_common_parent_" ++ String.intercalate "_" (peers.take 3)
            architecture_a := peers.getD 0 ""
            architecture_b := if 1 < peers.length then peers.getD 1 ""
              else peers.getD 0 ""
            level_a := level
            level_b := level
            missing_level := missingLevel
            hypothesis := "Unknown " ++ missingLevel
              ++ " architecture that contains " ++ String.intercalate ", " peers
            evidence :=
              [toString peers.length ++ " peer architectures at " ++ level
                 ++ " level",
               "No common parent identified",
               "Expected parent at " ++ missingLevel ++ " level"]
            gap_type := "missing_parent" }
      else none
    | none => none

/-- `MatryoshkaAnalyzer._identify_missing_parent`. -/
def identifyMissingParent (archName : String) (metadata : HierarchyMetadata) :
    Option HierarchicalGap :=
  if metadata.inferred_level == "enterprise" then none
  else
    match hIdx metadata.inferred_level with
    | some idx =>
      if idx < hierarchyOrder.length - 1 then
        let missingLevel := hierarchyOrder.getD (idx + 1) "unknown"
        some
          { id := "gap_parent_" ++ archName
            architecture_a := archName
            architecture_b := "unknown"
            level_a := metadata.inferred_level
            level_b := "unknown"
            missing_level := missingLevel
            hypothesis := "Unknown " ++ missingLevel
              ++ " architecture that contains " ++ archName
            evidence :=
              [archName ++ " at " ++ metadata.inferred_level ++ " level",
               "No parent architecture identified",
               "Expected parent at " ++ missingLevel ++ " level"]
            gap_type := "missing_parent" }
      else none
    | none => none

/-- One step of building the Python dict
`{arch['name']: infer_hierarchy_level(arch) for arch in architectures}`:
a repeated key keeps its position but takes the newest value. -/
def upsertMeta (acc : List (String × HierarchyMetadata))
    (kv : String × HierarchyMetadata) : List (String × HierarchyMetadata) :=
  if acc.any (fun p => p.1 == kv.1) then
    acc.map (fun p => if p.1 == kv.1 then (p.1, kv.2) else p)
  else acc ++ [kv]

/-- The `hierarchy_metadata` dict, as its item list in Python dict order. -/
def hierarchyMetadataItems (archs : List Arch) :
    List (String × HierarchyMetadata) :=
  archs.foldl (fun acc a => upsertMeta acc (a.name, inferHierarchyLevel a)) []

/-- `hierarchy_metadata[name]` — total; the fallback is unreachable because
the dict is only indexed with names of architectures in the list. -/
def metaLookup (items : List (String × HierarchyMetadata)) (nm : String) :
    HierarchyMetadata :=
  match items.find? (fun p => p.1 == nm) with
  | some p => p.2
  | none =>
    { architecture_name := nm, declared_level := none,
      inferred_level := "unknown", confidence := 0, evidence := [] }

/-- One step of building `peers_by_level` (append to an existing level's
list, else add a new singleton group at the end). -/
def addPeer (groups : List (String × List String)) (level nm : String) :
    List (String × List String) :=
  if groups.any (fun g => g.1 == level) then
    groups.map (fun g => if g.1 == level then (g.1, g.2 ++ [nm]) else g)
  else groups ++ [(level, [nm])]

/-- `peers_by_level` in `discover_hierarchical_gaps`, in dict order. -/
def peersByLevel (items : List (String × HierarchyMetadata)) :
    List (String × List String) :=
  items.foldl (fun gs kv => addPeer gs kv.2.inferred_level kv.1) []

/-- Case 1 of `discover_hierarchical_gaps`: one gap per `nested_indirect`
relationship. -/
def case1Gaps (rels : List NestingRelationship) : List HierarchicalGap :=
  rels.filterMap (fun r =>
    if r.relationship_type == "nested_indirect" then
      identifyMissingIntermediate r.parent_architecture r.child_architecture
        r.parent_level r.child_level
    else none)

/-- Case 2: groups of two or more same-level peers without a common parent. -/
def case2Gaps (items : List (String × HierarchyMetadata))
    (rels : List NestingRelationship) : List HierarchicalGap :=
  (peersByLevel items).filterMap (fun g =>
    if 1 < g.2.length then checkMissingCommonParent g.2 g.1 rels else none)

/-- Case 3: architectures that are the child of no relationship at all. -/
def case3Gaps (archs : List Arch)
    (items : List (String × HierarchyMetadata))
    (rels : List NestingRelationship) : List HierarchicalGap :=
  archs.filterMap (fun a =>
    if rels.any (fun r => r.child_architecture == a.name) then none
    else identifyMissingParent a.name (metaLookup items a.name))

/-- `MatryoshkaAnalyzer.discover_hierarchical_gaps`. -/
def discoverHierarchicalGaps (archs : List Arch)
    (rels : List NestingRelationship) : List HierarchicalGap :=
  let items := hierarchyMetadataItems archs
  case1Gaps rels ++ case2Gaps items rels ++ case3Gaps archs items rels

/-! ## Data model of `matrix_gap_detection.py` (solver and decomposer)

Adjacency matrices are `Matrix (Fin n) (Fin n) ℚ`.  `MissingSystemSolver`
first zero-pads both matrices to the common size; for the claims below the
two inputs already share one size, where `_pad_matrix` returns its argument
unchanged (`current_size >= target_size`), so the embedding works with the
already-padded square matrices. -/

/-- The four Penrose equations: `P` is the Moore–Penrose pseudoinverse of
`A` (they determine `np.linalg.pinv A` uniquely). -/
def IsMoorePenrose {n : ℕ} (A P : Matrix (Fin n) (Fin n) ℚ) : Prop :=
  A * P * A = A ∧ P * A * P = P
    ∧ Matrix.transpose (A * P) = A * P ∧ Matrix.transpose (P * A) = P * A

/-- `B_matrix = C_padded @ A_inv` in `MissingSystemSolver.solve`. -/
def solveB {n : ℕ} (C P : Matrix (Fin n) (Fin n) ℚ) :
    Matrix (Fin n) (Fin n) ℚ := C * P

/-- The matrix `C - B @ A` whose Frobenius norm is
`reconstruction_error`; the error is `0` exactly when this matrix is `0`. -/
def reconErrMatrix {n : ℕ} (A C P : Matrix (Fin n) (Fin n) ℚ) :
    Matrix (Fin n) (Fin n) ℚ := C - solveB C P * A

/-- `np.sum(np.abs(B) > 0.01) / B.size`. -/
def sparsity {n : ℕ} (B : Matrix (Fin n) (Fin n) ℚ) : ℚ :=
  ((Finset.univ.filter fun p : Fin n × Fin n =>
      (1 : ℚ)/100 < |B p.1 p.2|).card : ℚ) / (n * n)

/-- The confidence record returned by
`MissingSystemSolver._calculate_confidence`. -/
structure SolverConfidence where
  overall : ℚ
  reconstruction_quality : ℚ
  rank_quality : ℚ
  sparsity_quality : ℚ
  interpretation : String
deriving Repr

/-- `MissingSystemSolver._confidence_interpretation`. -/
def confidenceInterpretation (score : ℚ) : String :=
  if 8/10 ≤ score then "HIGH - Strong evidence for specific missing system"
  else if 6/10 ≤ score then "MEDIUM - Likely missing system, needs validation"
  else if 4/10 ≤ score then "LOW - Weak evidence, multiple possibilities"
  else "VERY_LOW - Insufficient data or poorly constrained"

/-- `MissingSystemSolver._calculate_confidence`.  `errScore` is the value
of `np.exp(-error)` (see the header comment); it is `1` whenever the
reconstruction-error matrix is `0`. -/
noncomputable def calculateConfidence {n : ℕ}
    (B : Matrix (Fin n) (Fin n) ℚ) (errScore : ℚ) : SolverConfidence :=
  let rankScore : ℚ := (B.rank : ℚ) / n
  let sparsityScore : ℚ := 1 - |sparsity B - 1/2|
  let overall := (errScore + rankScore + sparsityScore) / 3
  { overall := overall
    reconstruction_quality := errScore
    rank_quality := rankScore
    sparsity_quality := sparsityScore
    interpretation := confidenceInterpretation overall }

/-- A singular value decomposition of `B` as produced by
`np.linalg.svd(B, full_matrices=False)` on a square matrix: orthogonal
`U`, `V` and `B = U @ diag S @ V.T`. -/
def IsSVD {n : ℕ} (B U V : Matrix (Fin n) (Fin n) ℚ) (S : Fin n → ℚ) : Prop :=
  Matrix.transpose U * U = 1 ∧ Matrix.transpose V * V = 1
    ∧ B = U * Matrix.diagonal S * Matrix.transpose V

/-- `S_norm = S / S[0] if S[0] > 0 else S` in `MultiLayerGapDetector.detect`. -/
def normalizeS {n : ℕ} (S : Fin n → ℚ) : Fin n → ℚ :=
  if h : 0 < n then
    if 0 < S ⟨0, h⟩ then fun i => S i / S ⟨0, h⟩ else S
  else S

/-- `num_layers = int(np.sum(S_norm > threshold))`. -/
def numLayers {n : ℕ} (Snorm : Fin n → ℚ) (threshold : ℚ) : ℕ :=
  (Finset.univ.filter fun i => threshold < Snorm i).card

/-! ## Data model of `GraphSystem.from_json` (the loader) -/

/-- An edge object: `source`/`target` or `from`/`to` endpoints,
`weight`/`strength` weights; `Option` encodes an absent key. -/
structure EdgeJson where
  source : Option String
  target : Option String
  fromField : Option String
  toField : Option String
  weight : Option ℚ
  strength : Option ℚ
deriving Repr, DecidableEq

/-- A node object (`id`, `node_id`, `name`, any possibly absent). -/
structure NodeJson where
  id : Option String
  node_id : Option String
  name : Option String
deriving Repr, DecidableEq

/-- A component object (`id`, `component_id`, numeric `state`). -/
structure ComponentJson where
  id : Option String
  component_id : Option String
  state : Option ℚ
deriving Repr, DecidableEq

/-- The graph payload (`data['graph']`, `data['system_of_systems_graph']`,
or the document itself for the flat formats). -/
structure GraphData where
  nodes : Option (List NodeJson)
  edges : Option (List EdgeJson)
  links : Option (List EdgeJson)
  components : Option (List ComponentJson)
  system_name : Option String
deriving Repr, DecidableEq

/-- A top-level input document for `GraphSystem.from_json`.  (The Python
guard `isinstance(data['graph'], dict)` is built into the typing: a present
`graph` key is always a graph object here.) -/
structure Doc where
  graph : Option GraphData
  system_of_systems_graph : Option GraphData
  nodes : Option (List NodeJson)
  edges : Option (List EdgeJson)
  links : Option (List EdgeJson)
  components : Option (List ComponentJson)
  system_name : Option String
deriving Repr, DecidableEq

/-- The loader's output: the parts of `GraphSystem` that `from_json`
constructs (name, ordered node list, adjacency matrix, node states). -/
structure GraphSystemL where
  name : String
  nodes : List String
  adjacency : List (List ℚ)
  node_states : List ℚ
deriving Repr, DecidableEq

/-- Write `adjacency[i][j] = w` in the list-of-rows representation. -/
def setEntry (m : List (List ℚ)) (i j : Nat) (w : ℚ) : List (List ℚ) :=
  m.set i ((m.getD i []).set j w)

/-- `GraphSystem.add_edge`; `none` models the `ValueError` raised when an
endpoint is not in the node list. -/
def addEdge (sys : GraphSystemL) (fromNode toNode : String) (w : ℚ) :
    Option GraphSystemL :=
  match sys.nodes.findIdx? (fun x => x == fromNode),
        sys.nodes.findIdx? (fun x => x == toNode) with
  | some i, some j => some { sys with adjacency := setEntry sys.adjacency i j w }
  | _, _ => none

/-- `GraphSystem.set_node_state`; `none` models the `ValueError`. -/
def setNodeState (sys : GraphSystemL) (node : String) (st : ℚ) :
    Option GraphSystemL :=
  match sys.nodes.findIdx? (fun x => x == node) with
  | some i => some { sys with node_states := sys.node_states.set i st }
  | none => none

/-- `edge.get('source', edge.get('from'))`. -/
def resolvedSource (e : EdgeJson) : Option String :=
  match e.source with
  | some s => some s
  | none => e.fromField

/-- `edge.get('target', edge.get('to'))`. -/
def resolvedTarget (e : EdgeJson) : Option String :=
  match e.target with
  | some t => some t
  | none => e.toField

/-- The per-edge work of the loader loop: resolve the endpoints and the
weight, skip falsy endpoints (`if source and target:`), and swallow the
`ValueError` of `add_edge` (unresolvable endpoints are silently dropped). -/
def processEdge (sys : GraphSystemL) (e : EdgeJson) : GraphSystemL :=
  let w := e.weight.getD (e.strength.getD 1)
  match resolvedSource e, resolvedTarget e with
  | some s, some t =>
    if s ≠ "" ∧ t ≠ "" then
      match addEdge sys s t w with
      | some sys2 => sys2
      | none => sys
    else sys
  | _, _ => sys

/-- `edges_key`: `'edges' if 'edges' in graph_data else 'links' ...` (for
the ecosystem format the `links → edges` renaming composes to the same
selection). -/
def edgeList (gd : GraphData) : List EdgeJson :=
  match gd.edges with
  | some es => es
  | none => gd.links.getD []

/-- The node-state loading loop (`if 'components' in graph_data:`). -/
def loadStates (sys : GraphSystemL) (gd : GraphData) : GraphSystemL :=
  match gd.components with
  | none => sys
  | some comps => comps.foldl (fun s c =>
      match c.state with
      | none => s
      | some st =>
        match (match c.id with | some i => some i | none => c.component_id) with
        | some cid =>
          if cid ≠ "" then
            match setNodeState s cid st with
            | some s2 => s2
            | none => s
          else s
        | none => s) sys

/-- Node-id extraction for the ecosystem format:
`n.get('id', n.get('name', f"node_{i}"))`. -/
def nodeIdFmt1 (i : Nat) (nd : NodeJson) : String :=
  nd.id.getD (nd.name.getD ("node_" ++ toString i))

/-- Node-id extraction for the system-of-systems format:
`n.get('node_id', n.get('id', f"node_{i}"))`. -/
def nodeIdFmt2 (i : Nat) (nd : NodeJson) : String :=
  nd.node_id.getD (nd.id.getD ("node_" ++ toString i))

/-- Node-id extraction for the flat format:
`n.get('id', n.get('node_id', f"node_{i}"))`. -/
def nodeIdFmt3 (i : Nat) (nd : NodeJson) : String :=
  nd.id.getD (nd.node_id.getD ("node_" ++ toString i))

/-- Node-id extraction for the components format:
`c.get('id', c.get('component_id', f"comp_{i}"))`. -/
def compId (i : Nat) (c : ComponentJson) : String :=
  c.id.getD (c.component_id.getD ("comp_" ++ toString i))

/-- Zero-initialised system (`GraphSystem.__post_init__`) followed by the
edge and node-state loading loops. -/
def buildSystem (nm : String) (nodes : List String) (gd : GraphData) :
    GraphSystemL :=
  let n := nodes.length
  let init : GraphSystemL :=
    { name := nm
      nodes := nodes
      adjacency := List.replicate n (List.replicate n 0)
      node_states := List.replicate n 0 }
  loadStates ((edgeList gd).foldl processEdge init) gd

/-- The flat document re-read as a graph payload (formats 3 and 4 use the
document itself as `graph_data`). -/
def docAsGraphData (d : Doc) : GraphData :=
  { nodes := d.nodes, edges := d.edges, links := d.links,
    components := d.components, system_name := none }

/-- `GraphSystem.from_json` (`stem` is `filepath.stem`); an `Except.error`
models the `ValueError`s the loader raises. -/
def fromJson (stem : String) (d : Doc) : Except String GraphSystemL :=
  match d.graph with
  | some gd =>
    match gd.nodes with
    | none => Except.error "No nodes found in ecosystem graph"
    | some ns =>
      Except.ok (buildSystem (gd.system_name.getD stem)
        (ns.enum.map fun p => nodeIdFmt1 p.1 p.2) gd)
  | none =>
  match d.system_of_systems_graph with
  | some gd =>
    match gd.nodes with
    | none => Except.error "No nodes found in system_of_systems_graph"
    | some ns =>
      Except.ok (buildSystem (gd.system_name.getD stem)
        (ns.enum.map fun p => nodeIdFmt2 p.1 p.2) gd)
  | none =>
  match d.nodes with
  | some ns =>
    Except.ok (buildSystem stem (ns.enum.map fun p => nodeIdFmt3 p.1 p.2)
      (docAsGraphData d))
  | none =>
  match d.components with
  | some cs =>
    Except.ok (buildSystem stem (cs.enum.map fun p => compId p.1 p.2)
      (docAsGraphData d))
  | none => Except.error ("Unknown graph format in " ++ stem
      ++ ". Expected 'graph', 'system_of_systems_graph', 'nodes', or 'components' key")

/-- The condition named by the specification: the document contains at
least one of the recognized top-level keys.  (Stated from the spec's words,
for comparison with what `fromJson` actually does.) -/
def hasRecognizedKey (d : Doc) : Bool :=
  d.graph.isSome || d.system_of_systems_graph.isSome
    || d.nodes.isSome || d.components.isSome

/-- The condition under which the loader actually fails beyond a missing
recognized key: a `graph` or `system_of_systems_graph` wrapper that is
selected by the format detection but has no `nodes` list. -/
def wrapperLacksNodes (d : Doc) : Bool :=
  match d.graph with
  | some gd => gd.nodes.isNone
  | none =>
    match d.system_of_systems_graph with
    | some gd => gd.nodes.isNone
    | none => false

/-- Stated from the specification's words, for comparison with
`inferHierarchyLevel`: the *lowest* taxonomy level attaining the maximal
score (`"unknown"` is unreachable: some level always attains the maximum
of the five scores). -/
def lowestMaxLevel (arch : Arch) : String :=
  match hierarchyOrder.find? (fun l =>
      decide (∀ l2 ∈ hierarchyOrder, levelScore arch l2 ≤ levelScore arch l)) with
  | some l => l
  | none => "unknown"

/-! ## Helper lemmas -/

section Lemmas

attribute [local semireducible] Rat.add Rat.mul Rat.inv Rat.sub

/-- The fold used by `bestLevel` (Python `max` with a key) returns an
element of the candidate list. -/
theorem foldl_choice_mem (f : String → ℚ) :
    ∀ (t : List String) (a : String),
      t.foldl (fun acc l => if f acc < f l then l else acc) a ∈ a :: t := by
  intro t
  induction t with
  | nil => intro a; simp
  | cons x xs ih =>
    intro a
    simp only [List.foldl_cons]
    by_cases h : f a < f x
    · simp only [if_pos h]
      have := ih x
      simp only [List.mem_cons] at this ⊢
      tauto
    · simp only [if_neg h]
      have := ih a
      simp only [List.mem_cons] at this ⊢
      tauto

/-- The fold used by `bestLevel` attains the maximum score and is the
*first* element of the candidate list doing so. -/
theorem foldl_choice_first_max (f : String → ℚ) :
    ∀ (t : List String) (a : String),
      (∀ x ∈ a :: t,
        f x ≤ f (t.foldl (fun acc l => if f acc < f l then l else acc) a)) ∧
      (a :: t).find? (fun x =>
          decide (f (t.foldl (fun acc l => if f acc < f l then l else acc) a) ≤ f x))
        = some (t.foldl (fun acc l => if f acc < f l then l else acc) a) := by
  intro t
  induction t with
  | nil =>
    intro a
    constructor
    · intro x hx; simp at hx; simp [hx]
    · simp [List.find?]
  | cons x xs ih =>
    intro a
    simp only [List.foldl_cons]
    by_cases h : f a < f x
    · simp only [if_pos h]
      obtain ⟨hmax, hfind⟩ := ih x
      refine ⟨?_, ?_⟩
      · intro y hy
        rcases List.mem_cons.mp hy with rfl | hy2
        · exact le_of_lt (lt_of_lt_of_le h (hmax x (by simp)))
        · exact hmax y hy2
      · have hr := foldl_choice_mem f xs x
        have hra : f a <
            f (xs.foldl (fun acc l => if f acc < f l then l else acc) x) :=
          lt_of_lt_of_le h (hmax x (by simp))
        rw [List.find?_cons]
        rw [decide_eq_false (not_le.mpr hra)]
        exact hfind
    · simp only [if_neg h]
      obtain ⟨hmax, hfind⟩ := ih a
      refine ⟨?_, ?_⟩
      · intro y hy
        rcases List.mem_cons.mp hy with rfl | hy2
        · exact hmax _ (by simp)
        · rcases List.mem_cons.mp hy2 with rfl | hy3
          · exact le_trans (le_of_not_lt h) (hmax a (by simp))
          · exact hmax y (List.mem_cons.mpr (Or.inr hy3))
      · by_cases ha : f (xs.foldl (fun acc l => if f acc < f l then l else acc) a) ≤ f a
        · have har : a = xs.foldl (fun acc l => if f acc < f l then l else acc) a := by
            have := hfind
            simp only [List.find?_cons, decide_eq_true ha] at this
            exact Option.some.inj this
          simp only [List.find?_cons, decide_eq_true ha]
          exact congrArg some har
        · have hx2 : ¬ f (xs.foldl (fun acc l => if f acc < f l then l else acc) a) ≤ f x :=
            fun hc => ha (le_trans hc (le_of_not_lt h))
          simp only [List.find?_cons, decide_eq_false ha] at hfind
          simp only [List.find?_cons, decide_eq_false ha, decide_eq_false hx2]
          exact hfind

end Lemmas

section Lemmas2

attribute [local semireducible] Rat.add Rat.mul Rat.inv Rat.sub

/-- `find?` only depends on the predicate's values on the list. -/
theorem find?_congr_on {α} (p q : α → Bool) :
    ∀ l : List α, (∀ x ∈ l, p x = q x) → l.find? p = l.find? q := by
  intro l
  induction l with
  | nil => intro _; rfl
  | cons a t ih =>
    intro h
    have ha := h a (by simp)
    cases hqa : q a with
    | true => simp [List.find?_cons, ha, hqa]
    | false =>
      simp only [List.find?_cons, ha, hqa]
      exact ih (fun x hx => h x (by simp [hx]))

/-- `bestLevel` picks a member of the taxonomy. -/
theorem bestLevel_mem (arch : Arch) : bestLevel arch ∈ hierarchyOrder := by
  have h := foldl_choice_mem (levelScore arch)
    ["subsystem", "system", "system_of_systems", "enterprise"] "component"
  simpa [bestLevel, hierarchyOrder] using h

/-- `bestLevel` attains the maximal score over the taxonomy. -/
theorem bestLevel_max (arch : Arch) :
    ∀ l ∈ hierarchyOrder, levelScore arch l ≤ levelScore arch (bestLevel arch) := by
  have h := (foldl_choice_first_max (levelScore arch)
    ["subsystem", "system", "system_of_systems", "enterprise"] "component").1
  intro l hl
  have : l ∈ ("component" :: ["subsystem", "system", "system_of_systems", "enterprise"]) := by
    simpa [hierarchyOrder] using hl
  simpa [bestLevel, hierarchyOrder] using h l this

/-- Python `max` (first maximum wins) agrees with the specification's
"lowest level attaining the maximal score". -/
theorem bestLevel_eq_lowestMax (arch : Arch) :
    bestLevel arch = lowestMaxLevel arch := by
  have hfind := (foldl_choice_first_max (levelScore arch)
    ["subsystem", "system", "system_of_systems", "enterprise"] "component").2
  have hbl : bestLevel arch =
      List.foldl (fun acc l => if levelScore arch acc < levelScore arch l then l else acc)
        "component" ["subsystem", "system", "system_of_systems", "enterprise"] := by
    simp [bestLevel, hierarchyOrder]
  have hmax := bestLevel_max arch
  have hmem := bestLevel_mem arch
  have hcongr : hierarchyOrder.find?
      (fun x => decide (levelScore arch (bestLevel arch) ≤ levelScore arch x)) =
      hierarchyOrder.find? (fun l =>
        decide (∀ l2 ∈ hierarchyOrder, levelScore arch l2 ≤ levelScore arch l)) := by
    apply find?_congr_on
    intro x _
    apply decide_eq_decide.mpr
    constructor
    · intro hx l2 hl2
      exact le_trans (hmax l2 hl2) hx
    · intro hx
      exact hx (bestLevel arch) hmem
  have hfind2 : hierarchyOrder.find?
      (fun x => decide (levelScore arch (bestLevel arch) ≤ levelScore arch x)) =
      some (bestLevel arch) := by
    rw [hbl]
    simpa [hierarchyOrder] using hfind
  unfold lowestMaxLevel
  rw [← hcongr, hfind2]

/-- A level outside the taxonomy has no index (`list.index` raises). -/
theorem hIdx_eq_none {l : String} (h : l ∉ hierarchyOrder) : hIdx l = none := by
  simp only [hierarchyOrder, List.mem_cons, not_or, List.not_mem_nil,
    not_false_iff, and_true] at h
  obtain ⟨h1, h2, h3, h4, h5⟩ := h
  simp [hIdx, hierarchyOrder, List.findIdx?_cons, beq_iff_eq,
    Ne.symm h1, Ne.symm h2, Ne.symm h3, Ne.symm h4, Ne.symm h5]

end Lemmas2

section ClaimsClassifier

attribute [local semireducible] Rat.add Rat.mul Rat.inv Rat.sub

/-- C8: for an architecture without a (truthy) declared hierarchy_level whose
per-level scores all fall below the 0.3 floor, `infer_hierarchy_level`
reports the level "unknown" with the single generic evidence string. -/
theorem c8_low_score_unknown (arch : Arch)
    (hdecl : arch.hierarchy_level = none ∨ arch.hierarchy_level = some "")
    (hlow : ∀ l ∈ hierarchyOrder, levelScore arch l < 3/10) :
    (inferHierarchyLevel arch).inferred_level = "unknown" ∧
    (inferHierarchyLevel arch).evidence =
      ["Insufficient evidence to determine hierarchy level"] := by
  have hbest : levelScore arch (bestLevel arch) < 3/10 :=
    hlow _ (bestLevel_mem arch)
  have hsc : (inferScored arch).inferred_level = "unknown" ∧
      (inferScored arch).evidence =
        ["Insufficient evidence to determine hierarchy level"] := by
    simp [inferScored, hbest]
  rcases hdecl with hd | hd <;> simp [inferHierarchyLevel, hd, hsc]

/-- C8 witness: a one-word architecture with zero components matches no
signal at all, so every score is `0 < 0.3` and the level is "unknown". -/
theorem c8_witness :
    ((⟨"q", 0, "", "", none, none, []⟩ : Arch).hierarchy_level = none ∨
      (⟨"q", 0, "", "", none, none, []⟩ : Arch).hierarchy_level = some "") ∧
    (inferHierarchyLevel ⟨"q", 0, "", "", none, none, []⟩).inferred_level = "unknown" ∧
    (inferHierarchyLevel ⟨"q", 0, "", "", none, none, []⟩).evidence =
      ["Insufficient evidence to determine hierarchy level"] :=
  ⟨Or.inl rfl,
    c8_low_score_unknown ⟨"q", 0, "", "", none, none, []⟩ (Or.inl rfl)
      (by decide)⟩

/-- C10: with no (truthy) declared level, when two distinct taxonomy levels
tie for the maximal score and that score reaches the 0.3 floor,
`infer_hierarchy_level` returns the lowest level attaining the maximum
(Python's `max` keeps the first maximum in `hierarchy_order` order). -/
theorem c10_tie_breaks_low (arch : Arch) (l1 l2 : String)
    (hdecl : arch.hierarchy_level = none ∨ arch.hierarchy_level = some "")
    (hl1 : l1 ∈ hierarchyOrder) (hl2 : l2 ∈ hierarchyOrder) (hne : l1 ≠ l2)
    (heq : levelScore arch l1 = levelScore arch l2)
    (hmax1 : ∀ l ∈ hierarchyOrder, levelScore arch l ≤ levelScore arch l1)
    (hge : 3/10 ≤ levelScore arch l1) :
    (inferHierarchyLevel arch).inferred_level = lowestMaxLevel arch := by
  have hble : levelScore arch l1 ≤ levelScore arch (bestLevel arch) :=
    bestLevel_max arch l1 hl1
  have hnotlow : ¬ levelScore arch (bestLevel arch) < 3/10 :=
    not_lt.mpr (le_trans hge hble)
  have hsc : (inferScored arch).inferred_level = bestLevel arch := by
    unfold inferScored
    simp only [if_neg hnotlow]
  have hfin : (inferScored arch).inferred_level = lowestMaxLevel arch := by
    rw [hsc, bestLevel_eq_lowestMax]
  rcases hdecl with hd | hd <;> simp [inferHierarchyLevel, hd, hfin]

/-- C10 witness: `{name: "C", components: [60 items]}` scores 0.4 for both
"system" and "system_of_systems" (count-range signals only); the returned
level is "system", the lower of the two. -/
theorem c10_witness :
    levelScore ⟨"C", 60, "", "", none, none, []⟩ "system"
      = levelScore ⟨"C", 60, "", "", none, none, []⟩ "system_of_systems" ∧
    (inferHierarchyLevel ⟨"C", 60, "", "", none, none, []⟩).inferred_level
      = lowestMaxLevel ⟨"C", 60, "", "", none, none, []⟩ ∧
    lowestMaxLevel ⟨"C", 60, "", "", none, none, []⟩ = "system" :=
  ⟨by decide,
    c10_tie_breaks_low ⟨"C", 60, "", "", none, none, []⟩ "system" "system_of_systems"
      (Or.inl rfl) (by decide) (by decide) (by decide) (by decide) (by decide)
      (by decide),
    by decide⟩

/-- C7: whenever either architecture's inferred level is outside the
five-level taxonomy, `analyze_relationship` returns `unrelated` with
confidence 0 and the single evidence string saying the hierarchy level
could not be determined. -/
theorem c7_unknown_level_unrelated (archA archB : Arch)
    (ma mb : HierarchyMetadata)
    (h : ma.inferred_level ∉ hierarchyOrder ∨ mb.inferred_level ∉ hierarchyOrder) :
    (analyzeRelationship archA archB ma mb).relationship_type = "unrelated" ∧
    (analyzeRelationship archA archB ma mb).confidence = 0 ∧
    (analyzeRelationship archA archB ma mb).evidence =
      ["Cannot determine relationship - hierarchy level unknown"] := by
  rcases h with h | h
  · have hna := hIdx_eq_none h
    cases hb' : hIdx mb.inferred_level <;>
      simp [analyzeRelationship, hna, hb']
  · have hnb := hIdx_eq_none h
    cases ha' : hIdx ma.inferred_level <;>
      simp [analyzeRelationship, ha', hnb]

/-- C7 witness: a metadata record at level "unknown" (as produced by the
0.3 floor) against a resolvable one yields the unrelated record. -/
theorem c7_witness :
    (analyzeRelationship ⟨"a", 1, "", "", none, none, []⟩ ⟨"b", 1, "", "", none, none, []⟩
        ⟨"a", none, "unknown", 0, []⟩ ⟨"b", none, "component", 2/5, []⟩).relationship_type
      = "unrelated" ∧
    (analyzeRelationship ⟨"a", 1, "", "", none, none, []⟩ ⟨"b", 1, "", "", none, none, []⟩
        ⟨"a", none, "unknown", 0, []⟩ ⟨"b", none, "component", 2/5, []⟩).confidence = 0 ∧
    (analyzeRelationship ⟨"a", 1, "", "", none, none, []⟩ ⟨"b", 1, "", "", none, none, []⟩
        ⟨"a", none, "unknown", 0, []⟩ ⟨"b", none, "component", 2/5, []⟩).evidence =
      ["Cannot determine relationship - hierarchy level unknown"] :=
  c7_unknown_level_unrelated _ _ _ _ (Or.inl (by decide))

end ClaimsClassifier

section ClaimsRelationship

attribute [local semireducible] Rat.add Rat.mul Rat.inv Rat.sub
set_option maxRecDepth 8000

/-- The `relationship_type` field computed by `relTail`. -/
theorem relTail_type (p c : Arch) (pm cm : HierarchyMetadata)
    (rt0 : String) (ia ib : Nat) :
    (relTail p c pm cm rt0 ia ib).relationship_type =
      if max ia ib - min ia ib == 1 then rt0 else "nested_indirect" := rfl

/-- The `relationship_type` of `analyzeRelationship` as a function of the
two level indices. -/
theorem analyzeRelationship_type (a b : Arch) (ma mb : HierarchyMetadata)
    {ia ib : Nat} (ha : hIdx ma.inferred_level = some ia)
    (hb : hIdx mb.inferred_level = some ib) :
    (analyzeRelationship a b ma mb).relationship_type =
      if ia = ib then "peer"
      else if ia < ib then
        (if max ia ib - min ia ib == 1 then "parent_child" else "nested_indirect")
      else
        (if max ia ib - min ia ib == 1 then "child_parent" else "nested_indirect") := by
  unfold analyzeRelationship
  rw [ha, hb]
  by_cases h1 : ia = ib
  · simp [h1]
  · by_cases h2 : ia < ib <;> simp [h1, h2, relTail_type]

/-- C3 (amended): swapping the two arguments of `analyze_relationship`
preserves the `relationship_type` when the level indices are equal or
differ by two or more (`peer` / `nested_indirect`), but when they differ
by exactly one the type itself flips between `parent_child` and
`child_parent` (while the source keeps the same architecture labelled
`parent_architecture` in both calls). -/
theorem c3_swap_relationship_type (a b : Arch) (ma mb : HierarchyMetadata)
    {ia ib : Nat} (ha : hIdx ma.inferred_level = some ia)
    (hb : hIdx mb.inferred_level = some ib) :
    (max ia ib - min ia ib ≠ 1 →
      (analyzeRelationship a b ma mb).relationship_type =
        (analyzeRelationship b a mb ma).relationship_type) ∧
    (max ia ib - min ia ib = 1 →
      ((analyzeRelationship a b ma mb).relationship_type = "parent_child" ∧
        (analyzeRelationship b a mb ma).relationship_type = "child_parent") ∨
      ((analyzeRelationship a b ma mb).relationship_type = "child_parent" ∧
        (analyzeRelationship b a mb ma).relationship_type = "parent_child")) := by
  rw [analyzeRelationship_type a b ma mb ha hb,
    analyzeRelationship_type b a mb ma hb ha]
  have hsym : max ib ia - min ib ia = max ia ib - min ia ib := by
    rw [Nat.max_comm, Nat.min_comm]
  simp only [hsym, beq_iff_eq]
  constructor
  · intro hne
    split_ifs <;> first | rfl | omega
  · intro heq1
    split_ifs <;>
      first
        | omega
        | exact Or.inl ⟨rfl, rfl⟩
        | exact Or.inr ⟨rfl, rfl⟩

/-- C3 counterexample: `{name:"x", components:[1 item]}` is classified
"component" and `{name:"y", components:[21 items]}` "subsystem" — both
resolvable, adjacent levels — yet the two argument orders return the
distinct relationship_type values "parent_child" and "child_parent". -/
theorem c3_counterexample :
    (inferHierarchyLevel ⟨"x", 1, "", "", none, none, []⟩).inferred_level
      = "component" ∧
    (inferHierarchyLevel ⟨"y", 21, "", "", none, none, []⟩).inferred_level
      = "subsystem" ∧
    (analyzeRelationship ⟨"x", 1, "", "", none, none, []⟩
        ⟨"y", 21, "", "", none, none, []⟩
        (inferHierarchyLevel ⟨"x", 1, "", "", none, none, []⟩)
        (inferHierarchyLevel ⟨"y", 21, "", "", none, none, []⟩)).relationship_type
      = "parent_child" ∧
    (analyzeRelationship ⟨"y", 21, "", "", none, none, []⟩
        ⟨"x", 1, "", "", none, none, []⟩
        (inferHierarchyLevel ⟨"y", 21, "", "", none, none, []⟩)
        (inferHierarchyLevel ⟨"x", 1, "", "", none, none, []⟩)).relationship_type
      = "child_parent" ∧
    ("parent_child" : String) ≠ "child_parent" := by
  refine ⟨by decide, by decide, by decide, by decide, by decide⟩

/-- C3 witness: at adjacent levels ("component" at index 0, "subsystem" at
index 1) the amended theorem applies and the flip case fires. -/
theorem c3_witness :
    ((analyzeRelationship ⟨"x", 1, "", "", none, none, []⟩
        ⟨"y", 21, "", "", none, none, []⟩
        ⟨"x", none, "component", 2/5, []⟩
        ⟨"y", none, "subsystem", 2/5, []⟩).relationship_type = "parent_child" ∧
      (analyzeRelationship ⟨"y", 21, "", "", none, none, []⟩
        ⟨"x", 1, "", "", none, none, []⟩
        ⟨"y", none, "subsystem", 2/5, []⟩
        ⟨"x", none, "component", 2/5, []⟩).relationship_type = "child_parent") ∨
    ((analyzeRelationship ⟨"x", 1, "", "", none, none, []⟩
        ⟨"y", 21, "", "", none, none, []⟩
        ⟨"x", none, "component", 2/5, []⟩
        ⟨"y", none, "subsystem", 2/5, []⟩).relationship_type = "child_parent" ∧
      (analyzeRelationship ⟨"y", 21, "", "", none, none, []⟩
        ⟨"x", 1, "", "", none, none, []⟩
        ⟨"y", none, "subsystem", 2/5, []⟩
        ⟨"x", none, "component", 2/5, []⟩).relationship_type = "parent_child") :=
  (@c3_swap_relationship_type
      ⟨"x", 1, "", "", none, none, []⟩ ⟨"y", 21, "", "", none, none, []⟩
      ⟨"x", none, "component", 2/5, []⟩ ⟨"y", none, "subsystem", 2/5, []⟩
      0 1 (by decide) (by decide)).2 (by decide)

end ClaimsRelationship

section ClaimsMidpoint

attribute [local semireducible] Rat.add Rat.mul Rat.inv Rat.sub
set_option maxRecDepth 8000

/-- C2 counterexample: for the claim's concrete pair
`{name:"A", components:[1 item]}` and `{name:"C", components:[60 items]}`
the full pipeline (`infer_hierarchy_level` on both, `analyze_relationship`
on the pair, `discover_hierarchical_gaps` on the result) produces no gap
with missing_level "system": every produced gap carries "subsystem". -/
theorem c2_counterexample :
    ((discoverHierarchicalGaps
        [⟨"A", 1, "", "", none, none, []⟩, ⟨"C", 60, "", "", none, none, []⟩]
        [analyzeRelationship ⟨"A", 1, "", "", none, none, []⟩
          ⟨"C", 60, "", "", none, none, []⟩
          (inferHierarchyLevel ⟨"A", 1, "", "", none, none, []⟩)
          (inferHierarchyLevel ⟨"C", 60, "", "", none, none, []⟩)]).all
      (fun g => g.missing_level != "system")) = true ∧
    (discoverHierarchicalGaps
        [⟨"A", 1, "", "", none, none, []⟩, ⟨"C", 60, "", "", none, none, []⟩]
        [analyzeRelationship ⟨"A", 1, "", "", none, none, []⟩
          ⟨"C", 60, "", "", none, none, []⟩
          (inferHierarchyLevel ⟨"A", 1, "", "", none, none, []⟩)
          (inferHierarchyLevel ⟨"C", 60, "", "", none, none, []⟩)]).length
      = 2 := by
  refine ⟨by decide, by decide⟩

/-- C2 (amended): on the claim's concrete pair, `{name:"C", components:[60
items]}` is classified "system" (its count matches both the "system" and
"system_of_systems" ranges and Python's `max` keeps the lower level on the
tie), `{name:"A", ...}` is "component"; the level indices are 0 and 2, so
`discover_hierarchical_gaps` reports the midpoint level "subsystem" (once
from the nested-indirect rule and once from the orphan rule). -/
theorem c2_amended_midpoint_subsystem :
    (inferHierarchyLevel ⟨"A", 1, "", "", none, none, []⟩).inferred_level
      = "component" ∧
    (inferHierarchyLevel ⟨"C", 60, "", "", none, none, []⟩).inferred_level
      = "system" ∧
    (analyzeRelationship ⟨"A", 1, "", "", none, none, []⟩
        ⟨"C", 60, "", "", none, none, []⟩
        (inferHierarchyLevel ⟨"A", 1, "", "", none, none, []⟩)
        (inferHierarchyLevel ⟨"C", 60, "", "", none, none, []⟩)).relationship_type
      = "nested_indirect" ∧
    ((discoverHierarchicalGaps
        [⟨"A", 1, "", "", none, none, []⟩, ⟨"C", 60, "", "", none, none, []⟩]
        [analyzeRelationship ⟨"A", 1, "", "", none, none, []⟩
          ⟨"C", 60, "", "", none, none, []⟩
          (inferHierarchyLevel ⟨"A", 1, "", "", none, none, []⟩)
          (inferHierarchyLevel ⟨"C", 60, "", "", none, none, []⟩)]).map
      (fun g => g.missing_level)) = ["subsystem", "subsystem"] := by
  refine ⟨by decide, by decide, by decide, by decide⟩

end ClaimsMidpoint

section ClaimsDecomposer

attribute [local semireducible] Rat.add Rat.mul Rat.inv Rat.sub
set_option maxRecDepth 8000

/-- C6: for a fixed transformation matrix `B` (any SVD of it), the layer
count `num_subsystems = #{i | S_norm i > threshold}` of
`MultiLayerGapDetector.detect` is non-increasing in the threshold. -/
theorem c6_layer_count_antitone {n : ℕ} (B U V : Matrix (Fin n) (Fin n) ℚ)
    (S : Fin n → ℚ) (hsvd : IsSVD B U V S) {t1 t2 : ℚ} (h12 : t1 ≤ t2) :
    numLayers (normalizeS S) t2 ≤ numLayers (normalizeS S) t1 := by
  unfold numLayers
  apply Finset.card_le_card
  intro i hi
  simp only [Finset.mem_filter] at hi ⊢
  exact ⟨hi.1, lt_of_le_of_lt h12 hi.2⟩

/-- C6 witness: the identity matrix exposes the SVD `1 = 1 · diag 1 · 1ᵀ`;
raising the threshold from 0.1 to 0.2 cannot increase the count. -/
theorem c6_witness :
    numLayers (normalizeS (fun _ : Fin 1 => (1 : ℚ))) (2/10) ≤
      numLayers (normalizeS (fun _ : Fin 1 => (1 : ℚ))) (1/10) :=
  c6_layer_count_antitone (1 : Matrix (Fin 1) (Fin 1) ℚ) 1 1 (fun _ => 1)
    ⟨by simp, by simp, by simp⟩ (by norm_num)

end ClaimsDecomposer

section ClaimsSolver

attribute [local semireducible] Rat.add Rat.mul Rat.inv Rat.sub
set_option maxRecDepth 8000

/-- For an invertible `A`, the (unique) Moore–Penrose pseudoinverse is the
ordinary inverse — already forced by the first Penrose equation. -/
theorem moorePenrose_of_invertible {n : ℕ} (A P : Matrix (Fin n) (Fin n) ℚ)
    (hA : IsUnit A.det) (hP : IsMoorePenrose A P) : P = A⁻¹ := by
  have h2 : A⁻¹ * (A * P * A) * A⁻¹ = A⁻¹ * A * A⁻¹ := by rw [hP.1]
  calc P = (A⁻¹ * A) * P * (A * A⁻¹) := by
        rw [Matrix.nonsing_inv_mul A hA, Matrix.mul_nonsing_inv A hA,
          Matrix.one_mul, Matrix.mul_one]
    _ = A⁻¹ * (A * P * A) * A⁻¹ := by simp only [mul_assoc]
    _ = A⁻¹ * A * A⁻¹ := h2
    _ = A⁻¹ := by rw [Matrix.nonsing_inv_mul A hA, Matrix.one_mul]

/-- The Moore–Penrose pseudoinverse of the zero matrix is zero (forced by
the second Penrose equation). -/
theorem moorePenrose_zero {n : ℕ} (P : Matrix (Fin n) (Fin n) ℚ)
    (hP : IsMoorePenrose 0 P) : P = 0 := by
  have h := hP.2.1
  simpa using h.symm

/-- `np.sum(np.abs(I) > 0.01)` counts exactly the diagonal. -/
theorem sparsity_one {n : ℕ} (hn : 0 < n) :
    sparsity (1 : Matrix (Fin n) (Fin n) ℚ) = 1 / n := by
  unfold sparsity
  have hset : (Finset.univ.filter fun p : Fin n × Fin n =>
      (1 : ℚ)/100 < |(1 : Matrix (Fin n) (Fin n) ℚ) p.1 p.2|) =
      Finset.univ.diag := by
    ext p
    by_cases h : p.1 = p.2 <;>
      simp [Matrix.one_apply, Finset.mem_diag, h] <;>
      norm_num
  rw [hset, Finset.diag_card]
  simp only [Finset.card_univ, Fintype.card_fin]
  have hne : (n : ℚ) ≠ 0 := Nat.cast_ne_zero.mpr hn.ne'
  field_simp

/-- The all-zero matrix has sparsity 0. -/
theorem sparsity_zero {n : ℕ} :
    sparsity (0 : Matrix (Fin n) (Fin n) ℚ) = 0 := by
  unfold sparsity
  have hset : (Finset.univ.filter fun p : Fin n × Fin n =>
      (1 : ℚ)/100 < |(0 : Matrix (Fin n) (Fin n) ℚ) p.1 p.2|) = ∅ := by
    ext p
    simp only [Finset.mem_filter, Finset.mem_univ, true_and,
      Finset.not_mem_empty, iff_false]
    norm_num [Matrix.zero_apply]
  simp [hset]

/-- C1 (amended): for identical inputs whose common (padded) adjacency
matrix is invertible, `MissingSystemSolver.solve` returns `B = identity`,
a zero reconstruction-error matrix, and an overall confidence of at least
0.8 whose interpretation is the HIGH band.  (The pseudoinverse is
quantified via the Penrose equations; `errScore = exp(-0) = 1`.) -/
theorem c1_identical_invertible_high {n : ℕ} (hn : 0 < n)
    (A P : Matrix (Fin n) (Fin n) ℚ) (hA : IsUnit A.det)
    (hP : IsMoorePenrose A P) :
    solveB A P = 1 ∧ reconErrMatrix A A P = 0 ∧
    8/10 ≤ (calculateConfidence (solveB A P) 1).overall ∧
    (calculateConfidence (solveB A P) 1).interpretation =
      "HIGH - Strong evidence for specific missing system" := by
  have hPA := moorePenrose_of_invertible A P hA hP
  have hB : solveB A P = 1 := by
    rw [solveB, hPA, Matrix.mul_nonsing_inv A hA]
  have hE : reconErrMatrix A A P = 0 := by
    rw [reconErrMatrix, hB, Matrix.one_mul, sub_self]
  have hrank : (((1 : Matrix (Fin n) (Fin n) ℚ).rank : ℚ)) / n = 1 := by
    rw [Matrix.rank_one, Fintype.card_fin]
    have hne : (n : ℚ) ≠ 0 := Nat.cast_ne_zero.mpr hn.ne'
    field_simp
  have hsp := sparsity_one hn
  have habs : |1/(n : ℚ) - 1/2| ≤ 1/2 := by
    have h1 : (1 : ℚ)/n ≤ 1 := by
      rw [div_le_one (by exact_mod_cast hn)]
      exact_mod_cast hn
    have h2 : (0 : ℚ) < 1/n := by
      apply div_pos one_pos
      exact_mod_cast hn
    rw [abs_le]
    constructor <;> linarith
  have hoverall : (calculateConfidence (1 : Matrix (Fin n) (Fin n) ℚ) 1).overall =
      (1 + 1 + (1 - |1/(n : ℚ) - 1/2|)) / 3 := by
    simp only [calculateConfidence, hsp, hrank]
  have hge : 8/10 ≤ (calculateConfidence (1 : Matrix (Fin n) (Fin n) ℚ) 1).overall := by
    rw [hoverall]
    linarith
  refine ⟨hB, hE, by rw [hB]; exact hge, ?_⟩
  rw [hB]
  show confidenceInterpretation (calculateConfidence (1 : Matrix (Fin n) (Fin n) ℚ) 1).overall =
    "HIGH - Strong evidence for specific missing system"
  unfold confidenceInterpretation
  rw [if_pos hge]

/-- C1 witness: the 1-node system with a self-loop of weight 1 (adjacency
`[[1]]`), taken as both inputs. -/
theorem c1_witness :
    solveB (1 : Matrix (Fin 1) (Fin 1) ℚ) 1 = 1 ∧
    reconErrMatrix (1 : Matrix (Fin 1) (Fin 1) ℚ) 1 1 = 0 ∧
    8/10 ≤ (calculateConfidence (solveB (1 : Matrix (Fin 1) (Fin 1) ℚ) 1) 1).overall ∧
    (calculateConfidence (solveB (1 : Matrix (Fin 1) (Fin 1) ℚ) 1) 1).interpretation =
      "HIGH - Strong evidence for specific missing system" :=
  c1_identical_invertible_high (by norm_num) 1 1 (by simp)
    ⟨by simp, by simp, by simp, by simp⟩

/-- C1 counterexample: for the identical all-zero 1-node inputs the
pseudoinverse of `0` is `0` (Penrose), `B = 0` is *not* the identity, and
the confidence interpretation is not the HIGH band. -/
theorem c1_counterexample :
    IsMoorePenrose (0 : Matrix (Fin 1) (Fin 1) ℚ) 0 ∧
    solveB (0 : Matrix (Fin 1) (Fin 1) ℚ) 0 = 0 ∧
    (0 : Matrix (Fin 1) (Fin 1) ℚ) ≠ 1 ∧
    (calculateConfidence (solveB (0 : Matrix (Fin 1) (Fin 1) ℚ) 0) 1).interpretation ≠
      "HIGH - Strong evidence for specific missing system" := by
  have hB : solveB (0 : Matrix (Fin 1) (Fin 1) ℚ) 0 = 0 := by
    rw [solveB, mul_zero]
  refine ⟨⟨by simp, by simp, by simp, by simp⟩, hB, ?_, ?_⟩
  · intro h
    have h00 := congrFun (congrFun h 0) 0
    simp [Matrix.one_apply] at h00
  · rw [hB]
    have hrk : ((0 : Matrix (Fin 1) (Fin 1) ℚ).rank : ℚ) / (1 : ℕ) = 0 := by
      rw [Matrix.rank_zero]
      norm_num
    have hov : (calculateConfidence (0 : Matrix (Fin 1) (Fin 1) ℚ) 1).overall = 1/2 := by
      simp only [calculateConfidence, sparsity_zero, hrk]
      rw [zero_sub, abs_neg, abs_of_nonneg (by norm_num : (0:ℚ) ≤ 1/2)]
      norm_num
    show confidenceInterpretation
        (calculateConfidence (0 : Matrix (Fin 1) (Fin 1) ℚ) 1).overall ≠ _
    rw [hov]
    unfold confidenceInterpretation
    norm_num
    decide

end ClaimsSolver

section ClaimsDegenerate

attribute [local semireducible] Rat.add Rat.mul Rat.inv Rat.sub
set_option maxRecDepth 8000

/-- Any SVD of the zero matrix has all-zero singular values. -/
theorem svd_zero_singular {n : ℕ} (U V : Matrix (Fin n) (Fin n) ℚ)
    (S : Fin n → ℚ) (h : IsSVD 0 U V S) : ∀ i, S i = 0 := by
  obtain ⟨hU, hV, hB⟩ := h
  have hD : Matrix.diagonal S = 0 := by
    have h1 : Matrix.transpose U * (0 : Matrix (Fin n) (Fin n) ℚ) * V =
        Matrix.transpose U * (U * Matrix.diagonal S * Matrix.transpose V) * V := by
      rw [← hB]
    have h2 : Matrix.transpose U * (U * Matrix.diagonal S * Matrix.transpose V) * V =
        Matrix.diagonal S := by
      calc Matrix.transpose U * (U * Matrix.diagonal S * Matrix.transpose V) * V
          = (Matrix.transpose U * U) * Matrix.diagonal S * (Matrix.transpose V * V) := by
            simp only [mul_assoc]
        _ = Matrix.diagonal S := by rw [hU, hV, Matrix.one_mul, Matrix.mul_one]
    rw [← h2, ← h1]
    simp
  intro i
  have := congrFun (congrFun hD i) i
  simpa [Matrix.diagonal_apply_eq] using this

/-- All-zero singular values give layer count 0 for any threshold ≥ 0. -/
theorem numLayers_zero_of_allzero {n : ℕ} (S : Fin n → ℚ)
    (hS : ∀ i, S i = 0) : numLayers (normalizeS S) (1/10) = 0 := by
  have hnorm : normalizeS S = S := by
    unfold normalizeS
    split
    · rw [if_neg]
      rw [hS]
      exact lt_irrefl 0
    · rfl
  rw [hnorm]
  unfold numLayers
  rw [Finset.card_eq_zero]
  ext i
  simp only [Finset.mem_filter, Finset.mem_univ, true_and, Finset.not_mem_empty,
    iff_false, not_lt, hS i]
  norm_num

/-- C5 (amended): on a pair of all-zero adjacency matrices the solver and
detector complete (the embedding is total) with `B = 0`, a zero
reconstruction-error matrix, rank quality 0, an overall confidence of
exactly 1/2 whose interpretation is the *LOW* band (not VERY_LOW, and not
confidence 0 as the specification demands), and a detected layer count of
0 at the default threshold 0.1. -/
theorem c5_allzero_results {n : ℕ} (hn : 0 < n)
    (P U V : Matrix (Fin n) (Fin n) ℚ) (S : Fin n → ℚ)
    (hP : IsMoorePenrose (0 : Matrix (Fin n) (Fin n) ℚ) P)
    (hsvd : IsSVD (solveB (0 : Matrix (Fin n) (Fin n) ℚ) P) U V S) :
    solveB (0 : Matrix (Fin n) (Fin n) ℚ) P = 0 ∧
    reconErrMatrix (0 : Matrix (Fin n) (Fin n) ℚ) 0 P = 0 ∧
    (calculateConfidence (solveB (0 : Matrix (Fin n) (Fin n) ℚ) P) 1).rank_quality = 0 ∧
    (calculateConfidence (solveB (0 : Matrix (Fin n) (Fin n) ℚ) P) 1).overall = 1/2 ∧
    (calculateConfidence (solveB (0 : Matrix (Fin n) (Fin n) ℚ) P) 1).interpretation =
      "LOW - Weak evidence, multiple possibilities" ∧
    numLayers (normalizeS S) (1/10) = 0 := by
  have hP0 := moorePenrose_zero P hP
  have hB : solveB (0 : Matrix (Fin n) (Fin n) ℚ) P = 0 := by
    rw [solveB, hP0, mul_zero]
  have hrk : ((0 : Matrix (Fin n) (Fin n) ℚ).rank : ℚ) / n = 0 := by
    rw [Matrix.rank_zero]
    norm_num
  have hov : (calculateConfidence (0 : Matrix (Fin n) (Fin n) ℚ) 1).overall = 1/2 := by
    simp only [calculateConfidence, sparsity_zero, hrk]
    rw [zero_sub, abs_neg, abs_of_nonneg (by norm_num : (0:ℚ) ≤ 1/2)]
    norm_num
  have hrq : (calculateConfidence (0 : Matrix (Fin n) (Fin n) ℚ) 1).rank_quality = 0 := by
    simp only [calculateConfidence, hrk]
  have hint : (calculateConfidence (0 : Matrix (Fin n) (Fin n) ℚ) 1).interpretation =
      "LOW - Weak evidence, multiple possibilities" := by
    show confidenceInterpretation
        (calculateConfidence (0 : Matrix (Fin n) (Fin n) ℚ) 1).overall = _
    rw [hov]
    unfold confidenceInterpretation
    norm_num
  have hS0 : ∀ i, S i = 0 := by
    apply svd_zero_singular U V S
    rw [← hB]
    exact hsvd
  refine ⟨hB, ?_, by rw [hB]; exact hrq, by rw [hB]; exact hov, by rw [hB]; exact hint,
    numLayers_zero_of_allzero S hS0⟩
  simp [reconErrMatrix, solveB]

/-- C5 witness: the 1-node all-zero pair, with pseudoinverse `0` and the
trivial SVD `0 = 1 · diag 0 · 1ᵀ`. -/
theorem c5_witness :
    solveB (0 : Matrix (Fin 1) (Fin 1) ℚ) 0 = 0 ∧
    reconErrMatrix (0 : Matrix (Fin 1) (Fin 1) ℚ) 0 0 = 0 ∧
    (calculateConfidence (solveB (0 : Matrix (Fin 1) (Fin 1) ℚ) 0) 1).rank_quality = 0 ∧
    (calculateConfidence (solveB (0 : Matrix (Fin 1) (Fin 1) ℚ) 0) 1).overall = 1/2 ∧
    (calculateConfidence (solveB (0 : Matrix (Fin 1) (Fin 1) ℚ) 0) 1).interpretation =
      "LOW - Weak evidence, multiple possibilities" ∧
    numLayers (normalizeS (fun _ : Fin 1 => (0 : ℚ))) (1/10) = 0 :=
  c5_allzero_results (by norm_num) 0 1 1 (fun _ => 0)
    ⟨by simp, by simp, by simp, by simp⟩
    ⟨by simp, by simp, by simp [solveB]⟩

/-- C5 counterexample: on the all-zero 1-node pair the solver's confidence
is 1/2 with the LOW interpretation — not the confidence 0 / VERY_LOW band
the claim demands. -/
theorem c5_counterexample :
    (calculateConfidence (solveB (0 : Matrix (Fin 1) (Fin 1) ℚ) 0) 1).overall = 1/2 ∧
    (calculateConfidence (solveB (0 : Matrix (Fin 1) (Fin 1) ℚ) 0) 1).overall ≠ 0 ∧
    (calculateConfidence (solveB (0 : Matrix (Fin 1) (Fin 1) ℚ) 0) 1).interpretation =
      "LOW - Weak evidence, multiple possibilities" ∧
    (calculateConfidence (solveB (0 : Matrix (Fin 1) (Fin 1) ℚ) 0) 1).interpretation ≠
      "VERY_LOW - Insufficient data or poorly constrained" := by
  have hB : solveB (0 : Matrix (Fin 1) (Fin 1) ℚ) 0 = 0 := by
    rw [solveB, mul_zero]
  have hrk : ((0 : Matrix (Fin 1) (Fin 1) ℚ).rank : ℚ) / (1 : ℕ) = 0 := by
    rw [Matrix.rank_zero]
    norm_num
  have hov : (calculateConfidence (0 : Matrix (Fin 1) (Fin 1) ℚ) 1).overall = 1/2 := by
    simp only [calculateConfidence, sparsity_zero, hrk]
    rw [zero_sub, abs_neg, abs_of_nonneg (by norm_num : (0:ℚ) ≤ 1/2)]
    norm_num
  have hint : (calculateConfidence (0 : Matrix (Fin 1) (Fin 1) ℚ) 1).interpretation =
      "LOW - Weak evidence, multiple possibilities" := by
    show confidenceInterpretation
        (calculateConfidence (0 : Matrix (Fin 1) (Fin 1) ℚ) 1).overall = _
    rw [hov]
    unfold confidenceInterpretation
    norm_num
  rw [hB]
  exact ⟨hov, by rw [hov]; norm_num, hint, by rw [hint]; decide⟩

end ClaimsDegenerate

section ClaimsLoader

attribute [local semireducible] Rat.add Rat.mul Rat.inv Rat.sub
set_option maxRecDepth 8000

/-- A node name absent from the node list has no index (`list.index`
raises the `ValueError` that `add_edge` propagates). -/
theorem findIdxNoneOfContainsFalse {x : String} :
    ∀ l : List String, l.contains x = false →
      l.findIdx? (fun y => y == x) = none := by
  intro l
  induction l with
  | nil => intro _; rfl
  | cons a as ih =>
    intro h
    rw [List.contains_cons] at h
    simp only [Bool.or_eq_false_iff] at h
    obtain ⟨h1, h2⟩ := h
    have hax : (a == x) = false := by
      rw [beq_eq_false_iff_ne] at h1 ⊢
      exact Ne.symm h1
    simp [List.findIdx?_cons, hax, ih h2]

/-- C9 (amended): `from_json` fails exactly when either no recognized
top-level key is present *or* the selected `graph` /
`system_of_systems_graph` wrapper has no `nodes` list (so the spec's
"only hard failure" iff is too narrow); and any edge whose resolved
source or target is not in the node list is silently dropped, leaving the
system (in particular its adjacency matrix) unchanged. -/
theorem c9_loader_error_iff_and_edge_drop :
    (∀ (stem : String) (d : Doc),
      (∃ msg, fromJson stem d = Except.error msg) ↔
        (hasRecognizedKey d = false ∨ wrapperLacksNodes d = true)) ∧
    (∀ (sys : GraphSystemL) (e : EdgeJson) (s t : String),
      resolvedSource e = some s → resolvedTarget e = some t →
      (sys.nodes.contains s = false ∨ sys.nodes.contains t = false) →
      processEdge sys e = sys) := by
  constructor
  · intro stem d
    rcases hg : d.graph with _ | gd
    · rcases hs : d.system_of_systems_graph with _ | sg
      · rcases hn : d.nodes with _ | ns
        · rcases hc : d.components with _ | cs
          · simp [fromJson, hg, hs, hn, hc, hasRecognizedKey, wrapperLacksNodes]
          · simp [fromJson, hg, hs, hn, hc, hasRecognizedKey, wrapperLacksNodes]
        · simp [fromJson, hg, hs, hn, hasRecognizedKey, wrapperLacksNodes]
      · rcases hn : sg.nodes with _ | ns <;>
          simp [fromJson, hg, hs, hn, hasRecognizedKey, wrapperLacksNodes]
    · rcases hn : gd.nodes with _ | ns <;>
        simp [fromJson, hg, hn, hasRecognizedKey, wrapperLacksNodes]
  · intro sys e s t hs ht hc
    have hadd : addEdge sys s t (e.weight.getD (e.strength.getD 1)) = none := by
      rcases hc with hc | hc
      · have h1 := findIdxNoneOfContainsFalse sys.nodes hc
        cases h2 : sys.nodes.findIdx? (fun y => y == t) <;>
          simp [addEdge, h1, h2]
      · have h2 := findIdxNoneOfContainsFalse sys.nodes hc
        cases h1 : sys.nodes.findIdx? (fun y => y == s) <;>
          simp [addEdge, h1, h2]
    by_cases hne : s ≠ "" ∧ t ≠ ""
    · simp [processEdge, hs, ht, hne, hadd]
    · simp [processEdge, hs, ht, hne]

/-- C9 witness: a 1-node system and an edge aimed at the unknown target
"MISSING_SYSTEM" — the edge is dropped and the system is unchanged. -/
theorem c9_witness :
    processEdge ⟨"s", ["a"], [[0]], [0]⟩
      ⟨some "a", some "MISSING_SYSTEM", none, none, none, none⟩
      = ⟨"s", ["a"], [[0]], [0]⟩ :=
  c9_loader_error_iff_and_edge_drop.2 ⟨"s", ["a"], [[0]], [0]⟩
    ⟨some "a", some "MISSING_SYSTEM", none, none, none, none⟩
    "a" "MISSING_SYSTEM" rfl rfl (Or.inr (by decide))

/-- C9 counterexample: the document `{"graph": {}}` *does* contain the
recognized top-level key "graph", yet `from_json` still raises a format
error ("No nodes found in ecosystem graph"), refuting the claim's
"if and only if". -/
theorem c9_counterexample :
    fromJson "f" ⟨some ⟨none, none, none, none, none⟩, none, none, none, none, none, none⟩
      = Except.error "No nodes found in ecosystem graph" ∧
    hasRecognizedKey ⟨some ⟨none, none, none, none, none⟩, none, none, none, none, none, none⟩
      = true := by
  refine ⟨rfl, rfl⟩

end ClaimsLoader

section ClaimsOrphan

attribute [local semireducible] Rat.add Rat.mul Rat.inv Rat.sub
set_option maxRecDepth 8000

/-- Gaps from the nested-indirect rule always carry gap_type
"missing_intermediate". -/
theorem identifyMissingIntermediate_gapType (p c pl cl : String)
    (g : HierarchicalGap) (h : identifyMissingIntermediate p c pl cl = some g) :
    g.gap_type = "missing_intermediate" := by
  unfold identifyMissingIntermediate at h
  split at h
  · dsimp only at h
    split at h
    · exact absurd h (by simp)
    · cases h
      rfl
  · exact absurd h (by simp)

/-- Gaps from the common-parent rule carry the group's level (a member of
the taxonomy, hence never "unknown") as `level_b`. -/
theorem checkMissingCommonParent_some (peers : List String) (level : String)
    (rels : List NestingRelationship) (g : HierarchicalGap)
    (h : checkMissingCommonParent peers level rels = some g) :
    g.level_b = level ∧ hIdx level ≠ none := by
  unfold checkMissingCommonParent at h
  split at h
  · exact absurd h (by simp)
  · split at h
    · dsimp only at h
      split at h
      · cases h
        constructor
        · rfl
        · simp_all
      · exact absurd h (by simp)
    · exact absurd h (by simp)

/-- Orphan-rule gaps name the orphan as `architecture_a`, use gap_type
"missing_parent" and record the unknown partner as `level_b`. -/
theorem identifyMissingParent_some (nm : String) (m : HierarchyMetadata)
    (g : HierarchicalGap) (h : identifyMissingParent nm m = some g) :
    g.architecture_a = nm ∧ g.gap_type = "missing_parent" ∧
      g.level_b = "unknown" := by
  unfold identifyMissingParent at h
  split at h
  · exact absurd h (by simp)
  · split at h
    · split at h
      · cases h
        exact ⟨rfl, rfl, rfl⟩
      · exact absurd h (by simp)
    · exact absurd h (by simp)

/-- For a non-enterprise taxonomy level the orphan rule does produce a gap,
and it passes the C4 filter for its own architecture name. -/
theorem identifyMissingParent_produces (nm : String) (m : HierarchyMetadata)
    (hk : m.inferred_level ∈ hierarchyOrder)
    (he : m.inferred_level ≠ "enterprise") :
    ∃ g, identifyMissingParent nm m = some g ∧
      (g.gap_type == "missing_parent" && g.architecture_a == nm
        && g.level_b == "unknown") = true := by
  have hsome : (identifyMissingParent nm m).isSome = true := by
    simp only [hierarchyOrder, List.mem_cons, List.not_mem_nil, or_false] at hk
    rcases hk with h | h | h | h | h
    · simp [identifyMissingParent, h, hIdx, hierarchyOrder]
    · simp [identifyMissingParent, h, hIdx, hierarchyOrder]
    · simp [identifyMissingParent, h, hIdx, hierarchyOrder]
    · simp [identifyMissingParent, h, hIdx, hierarchyOrder]
    · exact absurd h he
  obtain ⟨g, hg⟩ := Option.isSome_iff_exists.mp hsome
  obtain ⟨h1, h2, h3⟩ := identifyMissingParent_some nm m g hg
  exact ⟨g, hg, by simp [h1, h2, h3]⟩

/-- Building the metadata dict over distinct names is a plain `map`. -/
theorem foldl_upsertMeta_disjoint :
    ∀ (l : List Arch) (acc : List (String × HierarchyMetadata)),
      (∀ a ∈ l, ∀ q ∈ acc, q.1 ≠ a.name) → (l.map Arch.name).Nodup →
      l.foldl (fun acc a => upsertMeta acc (a.name, inferHierarchyLevel a)) acc
        = acc ++ l.map (fun a => (a.name, inferHierarchyLevel a)) := by
  intro l
  induction l with
  | nil => intro acc _ _; simp
  | cons b t ih =>
    intro acc hdisj hnd
    rw [List.map_cons, List.nodup_cons] at hnd
    simp only [List.foldl_cons]
    have hany : acc.any (fun p => p.1 == b.name) = false := by
      rw [List.any_eq_false]
      intro q hq
      simp only [beq_iff_eq]
      exact hdisj b (by simp) q hq
    have hupd : upsertMeta acc (b.name, inferHierarchyLevel b)
        = acc ++ [(b.name, inferHierarchyLevel b)] := by
      unfold upsertMeta
      rw [hany]
      simp
    rw [hupd, ih (acc ++ [(b.name, inferHierarchyLevel b)]) ?hdisj2 hnd.2]
    · simp
    case hdisj2 =>
      intro a ha q hq
      rcases List.mem_append.mp hq with hq1 | hq2
      · exact hdisj a (by simp [ha]) q hq1
      · have hqb : q = (b.name, inferHierarchyLevel b) := by simpa using hq2
        rw [hqb]
        intro hEq
        apply hnd.1
        have hEq2 : b.name = a.name := hEq
        rw [hEq2]
        exact List.mem_map_of_mem Arch.name ha

/-- Looking up a unique name in the mapped association list. -/
theorem find?_name_of_nodup (arch : Arch) :
    ∀ l : List Arch, (l.map Arch.name).Nodup → arch ∈ l →
      (l.map (fun a => (a.name, inferHierarchyLevel a))).find?
          (fun p => p.1 == arch.name)
        = some (arch.name, inferHierarchyLevel arch) := by
  intro l
  induction l with
  | nil => intro _ h; simp at h
  | cons b t ih =>
    intro hnd hmem
    rw [List.map_cons, List.nodup_cons] at hnd
    by_cases hb : b.name = arch.name
    · have hba : b = arch := by
        rcases List.mem_cons.mp hmem with rfl | hmt
        · rfl
        · exact absurd (hb ▸ List.mem_map_of_mem Arch.name hmt) hnd.1
      subst hba
      simp [List.find?_cons]
    · have hmt : arch ∈ t := by
        rcases List.mem_cons.mp hmem with rfl | hmt
        · exact absurd rfl hb
        · exact hmt
      have hbf : (b.name == arch.name) = false := beq_eq_false_iff_ne.mpr hb
      simp only [List.map_cons, List.find?_cons, hbf]
      exact ih hnd.2 hmt

/-- Under distinct names, `hierarchy_metadata[arch.name]` is exactly
`infer_hierarchy_level(arch)`. -/
theorem metaLookup_of_nodup (archs : List Arch) (arch : Arch)
    (hnodup : (archs.map Arch.name).Nodup) (hmem : arch ∈ archs) :
    metaLookup (hierarchyMetadataItems archs) arch.name
      = inferHierarchyLevel arch := by
  have heq : hierarchyMetadataItems archs
      = archs.map (fun a => (a.name, inferHierarchyLevel a)) := by
    have := foldl_upsertMeta_disjoint archs [] (by simp) hnodup
    simpa [hierarchyMetadataItems] using this
  unfold metaLookup
  rw [heq, find?_name_of_nodup arch archs hnodup hmem]

end ClaimsOrphan

section ClaimsOrphanMain

attribute [local semireducible] Rat.add Rat.mul Rat.inv Rat.sub
set_option maxRecDepth 8000

/-- Counting helper: if exactly the unique list element with key `nm`
yields a filter-passing value under `f`, the filtered image has length 1. -/
theorem filterMap_filter_length_one {α β : Type} (f : α → Option β)
    (p : β → Bool) (key : α → String) (nm : String)
    (hother : ∀ a, key a ≠ nm → ∀ g, f a = some g → p g = false) :
    ∀ l : List α, (l.map key).Nodup →
      ∀ a0, a0 ∈ l → key a0 = nm →
      (∀ g, f a0 = some g → p g = true) → (∃ g, f a0 = some g) →
      ((l.filterMap f).filter p).length = 1 := by
  intro l
  induction l with
  | nil =>
    intro _ a0 h
    simp at h
  | cons b t ih =>
    intro hnd a0 hmem hkey hpt hpe
    rw [List.map_cons, List.nodup_cons] at hnd
    by_cases hb : key b = nm
    · have ha0b : a0 = b := by
        rcases List.mem_cons.mp hmem with rfl | hmt
        · rfl
        · exact absurd (hkey ▸ List.mem_map_of_mem key hmt) (hb ▸ hnd.1)
      subst ha0b
      obtain ⟨g0, hg0⟩ := hpe
      have hpg0 := hpt g0 hg0
      have hrest : (t.filterMap f).filter p = [] := by
        rw [List.filter_eq_nil_iff]
        intro g hg
        obtain ⟨a, ha, hfa⟩ := List.mem_filterMap.mp hg
        have hka : key a ≠ nm := by
          intro hEq
          exact (hb ▸ hnd.1) (hEq ▸ List.mem_map_of_mem key ha)
        simp [hother a hka g hfa]
      simp [List.filterMap_cons, hg0, List.filter_cons, hpg0, hrest]
    · have hmt : a0 ∈ t := by
        rcases List.mem_cons.mp hmem with rfl | h
        · exact absurd hkey hb
        · exact h
      have ihres := ih hnd.2 a0 hmt hkey hpt hpe
      cases hfb : f b with
      | none => simpa [List.filterMap_cons, hfb] using ihres
      | some g =>
        have hpg := hother b hb g hfb
        simpa [List.filterMap_cons, hfb, List.filter_cons, hpg] using ihres

/-- C4 (amended): an architecture that is the child of *no* relationship
in the list (of any type — the code's orphan test looks at every
relationship, not only parent-child edges) and whose inferred level is a
non-"enterprise" taxonomy member gives rise to exactly one orphan-rule
gap: a `missing_parent` gap naming it as `architecture_a` with an
"unknown" partner.  (The common-parent rule may emit *further*
missing_parent gaps referencing the same architecture, as the
counterexample shows, so the claim's "exactly one missing_parent gap
referencing it" fails as stated.) -/
theorem c4_orphan_exactly_one (archs : List Arch)
    (rels : List NestingRelationship) (arch : Arch)
    (hmem : arch ∈ archs) (hnodup : (archs.map Arch.name).Nodup)
    (horphan : ∀ r ∈ rels, r.child_architecture ≠ arch.name)
    (hk : (inferHierarchyLevel arch).inferred_level ∈ hierarchyOrder)
    (he : (inferHierarchyLevel arch).inferred_level ≠ "enterprise") :
    ((discoverHierarchicalGaps archs rels).filter (fun g =>
      g.gap_type == "missing_parent" && g.architecture_a == arch.name
        && g.level_b == "unknown")).length = 1 := by
  have hlookup := metaLookup_of_nodup archs arch hnodup hmem
  have hany : rels.any (fun r => r.child_architecture == arch.name) = false := by
    rw [List.any_eq_false]
    intro r hr
    simp only [beq_iff_eq]
    exact horphan r hr
  have h1 : ((case1Gaps rels).filter (fun g =>
      g.gap_type == "missing_parent" && g.architecture_a == arch.name
        && g.level_b == "unknown")) = [] := by
    rw [List.filter_eq_nil_iff]
    intro g hg
    obtain ⟨r, _, hfr⟩ := List.mem_filterMap.mp hg
    have hgt : g.gap_type = "missing_intermediate" := by
      split at hfr
      · exact identifyMissingIntermediate_gapType _ _ _ _ g hfr
      · exact absurd hfr (by simp)
    simp [hgt]
  have h2 : ((case2Gaps (hierarchyMetadataItems archs) rels).filter (fun g =>
      g.gap_type == "missing_parent" && g.architecture_a == arch.name
        && g.level_b == "unknown")) = [] := by
    rw [List.filter_eq_nil_iff]
    intro g hg
    obtain ⟨grp, _, hfg⟩ := List.mem_filterMap.mp hg
    have hlv : g.level_b ≠ "unknown" := by
      have hsome : checkMissingCommonParent grp.2 grp.1 rels = some g := by
        split at hfg
        · exact hfg
        · exact absurd hfg (by simp)
      obtain ⟨hlb, hidx⟩ := checkMissingCommonParent_some grp.2 grp.1 rels g hsome
      rw [hlb]
      intro hEq
      apply hidx
      rw [hEq]
      rfl
    simp [hlv]
  have h3 : ((case3Gaps archs (hierarchyMetadataItems archs) rels).filter (fun g =>
      g.gap_type == "missing_parent" && g.architecture_a == arch.name
        && g.level_b == "unknown")).length = 1 := by
    apply filterMap_filter_length_one _ _ Arch.name arch.name ?hother archs hnodup
      arch hmem rfl ?hpass ?hex
    case hother =>
      intro a hka g hfa
      have hsome : identifyMissingParent a.name
          (metaLookup (hierarchyMetadataItems archs) a.name) = some g := by
        split at hfa
        · exact absurd hfa (by simp)
        · exact hfa
      obtain ⟨haa, _, _⟩ := identifyMissingParent_some _ _ g hsome
      have : (g.architecture_a == arch.name) = false := by
        rw [haa]
        exact beq_eq_false_iff_ne.mpr hka
      simp [this]
    case hpass =>
      intro g hfa
      have hsome : identifyMissingParent arch.name
          (metaLookup (hierarchyMetadataItems archs) arch.name) = some g := by
        split at hfa
        · exact absurd hfa (by simp)
        · exact hfa
      obtain ⟨haa, hgt, hlb⟩ := identifyMissingParent_some _ _ g hsome
      simp [haa, hgt, hlb]
    case hex =>
      rw [hlookup] at *
      obtain ⟨g, hg, _⟩ := identifyMissingParent_produces arch.name
        (inferHierarchyLevel arch) hk he
      refine ⟨g, ?_⟩
      rw [hany]
      simp only [Bool.false_eq_true, if_false]
      rw [hlookup]
      exact hg
  rw [discoverHierarchicalGaps]
  rw [List.filter_append, List.filter_append, h1, h2]
  simpa using h3
end ClaimsOrphanMain

section ClaimsOrphanInstances

attribute [local semireducible] Rat.add Rat.mul Rat.inv Rat.sub
set_option maxRecDepth 8000

/-- C4 witness: a single component-level architecture with an empty
relationship list receives exactly one orphan gap. -/
theorem c4_witness :
    ((discoverHierarchicalGaps [⟨"x", 1, "", "", none, none, []⟩] []).filter
      (fun g => g.gap_type == "missing_parent" && g.architecture_a == "x"
        && g.level_b == "unknown")).length = 1 :=
  c4_orphan_exactly_one [⟨"x", 1, "", "", none, none, []⟩] []
    ⟨"x", 1, "", "", none, none, []⟩ (by simp) (by decide) (by simp)
    (by decide) (by decide)

/-- C4 counterexample: two component-level peers "x" and "y" with their
computed (peer) relationship.  "x" is the child of no parent-child
relationship and is not at the enterprise level, yet the output contains
*two* missing_parent gaps referencing "x": the orphan gap and the
missing-common-parent gap — refuting "exactly one". -/
theorem c4_counterexample :
    (analyzeRelationship ⟨"x", 1, "", "", none, none, []⟩
      ⟨"y", 1, "", "", none, none, []⟩
      (inferHierarchyLevel ⟨"x", 1, "", "", none, none, []⟩)
      (inferHierarchyLevel ⟨"y", 1, "", "", none, none, []⟩)).relationship_type
      = "peer" ∧
    (inferHierarchyLevel ⟨"x", 1, "", "", none, none, []⟩).inferred_level
      = "component" ∧
    ((discoverHierarchicalGaps
        [⟨"x", 1, "", "", none, none, []⟩, ⟨"y", 1, "", "", none, none, []⟩]
        [analyzeRelationship ⟨"x", 1, "", "", none, none, []⟩
          ⟨"y", 1, "", "", none, none, []⟩
          (inferHierarchyLevel ⟨"x", 1, "", "", none, none, []⟩)
          (inferHierarchyLevel ⟨"y", 1, "", "", none, none, []⟩)]).filter
      (fun g => g.gap_type == "missing_parent" &&
        (g.architecture_a == "x" || g.architecture_b == "x"))).length = 2 := by
  refine ⟨by decide, by decide, by decide⟩

end ClaimsOrphanInstances
